import Mathlib

/-
  Shallow embedding of the data-cleaning and feature-derivation pipeline of
  src/app.py (an e-commerce EDA dashboard script).

  The pipeline portion of the script (lines 18 to 54) performs, on the uploaded
  table df:
    step 3 (lines 18-23): type coercion with errors=coerce
        (unparsable values become null, no exception is raised);
    step 4 (lines 26-27): dropna on the key columns, then
        quantity <- quantity.fillna(quantity.median());
    step 5 (line 30): drop_duplicates on (order_id, product_id, customer_id),
        keeping the first occurrence;
    step 6 (lines 33-34): keep rows with price > 0 and quantity > 0, then rows
        with discount <= price (a null compared with <= or > yields False in
        pandas, so rows with a null field fail these filters and are dropped);
    step 7 (lines 37-40): order_datetime = to_datetime(order_date.astype(str)
        + " " + time.astype(str), errors=coerce);
    line 47: revenue = quantity * (price - discount);
    lines 49-54: day, week, month, hour, dayofweek columns, created only when
        not all order_datetime values are null.
  Line 57 previews df[[order_id, revenue, day, week, month, hour, dayofweek]]
  and line 160 computes is_weekend = dayofweek.isin([Saturday, Sunday]); both
  assume the derived columns exist.

  Numeric cells are modelled as rationals (the script uses floats; every claim
  here is either exact on the represented values or stated up to the tolerance
  the spec allows, which exact rational equality implies).
-/

namespace EDA

set_option maxRecDepth 100000

set_option maxHeartbeats 1000000

/-! ### Character-level parsing helpers (the errors=coerce coercions) -/

/-- Accumulates the decimal value of a digit list; any non-digit yields none. -/
def digitsValAux : List Char → Nat → Option Nat
  | [], acc => some acc
  | c :: cs, acc =>
    if c.isDigit then digitsValAux cs (acc * 10 + (c.toNat - 48)) else none

/-- Decimal value of a nonempty digit string, none on any other input. -/
def digitsVal : List Char → Option Nat
  | [] => none
  | cs => digitsValAux cs 0

/-- Splits a character list on a separator character. -/
def splitOnChar (sep : Char) : List Char → List (List Char)
  | [] => [[]]
  | c :: cs =>
    let r := splitOnChar sep cs
    if c = sep then [] :: r
    else
      match r with
      | [] => [[c]]
      | g :: gs => (c :: g) :: gs

/-- Numeric coercion, modelling pd.to_numeric with errors=coerce on a cell:
an optional sign followed by digits, with an optional decimal fraction;
anything else (for instance the literal string NaN placeholders or malformed
text) becomes none instead of raising. -/
def to_numeric (s : String) : Option ℚ :=
  let cs := s.toList
  let signBody : Bool × List Char :=
    match cs with
    | '-' :: rest => (true, rest)
    | '+' :: rest => (false, rest)
    | _ => (false, cs)
  let val : Option ℚ :=
    match splitOnChar '.' signBody.2 with
    | [ip] => (digitsVal ip).map (fun n => (n : ℚ))
    | [ip, fp] =>
      match digitsVal ip, digitsVal fp with
      | some n, some f => some ((n : ℚ) + (f : ℚ) / ((10 : ℚ) ^ fp.length))
      | _, _ => none
    | _ => none
  val.map (fun q => if signBody.1 then -q else q)

/-- A calendar date. -/
structure Date where
  year : Nat
  month : Nat
  day : Nat
deriving DecidableEq

/-- A time of day. -/
structure Time where
  hour : Nat
  minute : Nat
  second : Nat
deriving DecidableEq

/-- Gregorian leap-year test. -/
def isLeap (y : Nat) : Bool := (y % 4 == 0 && y % 100 != 0) || y % 400 == 0

/-- Month lengths for a (non-)leap year. -/
def monthLengths (leap : Bool) : List Nat :=
  [31, if leap then 29 else 28, 31, 30, 31, 30, 31, 31, 30, 31, 30, 31]

/-- Number of days in a month (months numbered from 1). -/
def daysInMonth (y m : Nat) : Nat := (monthLengths (isLeap y)).getD (m - 1) 31

/-- Days in the year strictly before the given month. -/
def daysBeforeMonth (y m : Nat) : Nat :=
  ((monthLengths (isLeap y)).take (m - 1)).sum

/-- Rata-die day number (0001-01-01 has number 1 and is a Monday). -/
def rataDie (d : Date) : Nat :=
  let y := d.year - 1
  365 * y + y / 4 - y / 100 + y / 400 + daysBeforeMonth d.year d.month + d.day

/-- Weekday names indexed by rataDie modulo 7. -/
def dayNames : List String :=
  ["Sunday", "Monday", "Tuesday", "Wednesday", "Thursday", "Friday", "Saturday"]

/-- Full English weekday name of a date, as produced by Series.dt.day_name. -/
def dayName (d : Date) : String := dayNames.getD (rataDie d % 7) "Sunday"

/-- Weekday with Monday = 1 up to Sunday = 7. -/
def weekdayMon1 (d : Date) : Nat :=
  let r := rataDie d % 7
  if r = 0 then 7 else r

/-- ISO-8601 calendar week number, as produced by Series.dt.isocalendar. -/
def isoWeek (d : Date) : Nat :=
  let rd := rataDie d
  let th := rd + 4 - weekdayMon1 d
  let yTh :=
    if th < rataDie ⟨d.year, 1, 1⟩ then d.year - 1
    else if rataDie ⟨d.year, 12, 31⟩ < th then d.year + 1
    else d.year
  (th - rataDie ⟨yTh, 1, 1⟩) / 7 + 1

/-- Month label in YYYY-MM form, as produced by dt.to_period(M).astype(str). -/
def monthLabel (d : Date) : String :=
  toString d.year ++ "-" ++ (if d.month < 10 then "0" else "") ++ toString d.month

/-- Date coercion, modelling pd.to_datetime with errors=coerce on a cell in
ISO YYYY-MM-DD form; anything unparsable becomes none instead of raising. -/
def parseDate (s : String) : Option Date :=
  match splitOnChar '-' s.toList with
  | [ys, ms, ds] =>
    match digitsVal ys, digitsVal ms, digitsVal ds with
    | some y, some m, some d =>
      if 1 ≤ m ∧ m ≤ 12 ∧ 1 ≤ d ∧ d ≤ daysInMonth y m then some ⟨y, m, d⟩
      else none
    | _, _, _ => none
  | _ => none

/-- Time-of-day coercion, modelling pd.to_datetime(...).dt.time on a cell in
HH:MM or HH:MM:SS form; anything unparsable becomes none instead of raising. -/
def parseTime (s : String) : Option Time :=
  match splitOnChar ':' s.toList with
  | [hs, ms] =>
    match digitsVal hs, digitsVal ms with
    | some h, some mi =>
      if h ≤ 23 ∧ mi ≤ 59 then some ⟨h, mi, 0⟩ else none
    | _, _ => none
  | [hs, ms, ss] =>
    match digitsVal hs, digitsVal ms, digitsVal ss with
    | some h, some mi, some s2 =>
      if h ≤ 23 ∧ mi ≤ 59 ∧ s2 ≤ 59 then some ⟨h, mi, s2⟩ else none
    | _, _, _ => none
  | _ => none

/-! ### The data model -/

/-- One raw CSV row: every cell is an optional string (none = empty cell). -/
structure RawRecord where
  order_id : Option String
  product_id : Option String
  customer_id : Option String
  category : Option String
  region : Option String
  payment_method : Option String
  order_date : Option String
  time : Option String
  price : Option String
  discount : Option String
  quantity : Option String
deriving DecidableEq

/-- A row after step 3 type coercion (lines 18-23 of app.py). -/
structure CoercedRecord where
  order_id : Option String
  product_id : Option String
  customer_id : Option String
  category : Option String
  region : Option String
  payment_method : Option String
  order_date : Option Date
  time : Option Time
  price : Option ℚ
  discount : Option ℚ
  quantity : Option ℚ
deriving DecidableEq

/-- Step 3 (lines 18-23): coerce order_date, time, price, discount, quantity;
identifier and label columns pass through untyped. A missing cell stays null,
a malformed cell becomes null, and no row is dropped at this step. -/
def coerce (r : RawRecord) : CoercedRecord where
  order_id := r.order_id
  product_id := r.product_id
  customer_id := r.customer_id
  category := r.category
  region := r.region
  payment_method := r.payment_method
  order_date := r.order_date.bind parseDate
  time := r.time.bind parseTime
  price := r.price.bind to_numeric
  discount := r.discount.bind to_numeric
  quantity := r.quantity.bind to_numeric

/-! ### Pipeline stages -/

/-- Key completeness test used by dropna(subset=[order_id, product_id,
customer_id]) at line 26. -/
def keysPresent (r : CoercedRecord) : Bool :=
  r.order_id.isSome && r.product_id.isSome && r.customer_id.isSome

/-- Insertion into a sorted rational list. -/
def insertSorted (x : ℚ) : List ℚ → List ℚ
  | [] => [x]
  | y :: ys => if x ≤ y then x :: y :: ys else y :: insertSorted x ys

/-- Insertion sort on rationals. -/
def sortQ (xs : List ℚ) : List ℚ := xs.foldr insertSorted []

/-- Series.median with skipna semantics: the middle element of the sorted
non-null values for odd length, the mean of the two middle elements for even
length, and none (NaN) for an empty list. -/
def median (xs : List ℚ) : Option ℚ :=
  let s := sortQ xs
  let n := s.length
  if n = 0 then none
  else if n % 2 = 1 then s[n / 2]?
  else
    match s[n / 2 - 1]?, s[n / 2]? with
    | some a, some b => some ((a + b) / 2)
    | _, _ => none

/-- Substitutes a null quantity with the given fill value (Series.fillna on
the quantity column; fillna with a NaN fill value leaves nulls in place,
which the none fill value models). -/
def imputeWith (m : Option ℚ) (r : CoercedRecord) : CoercedRecord :=
  { r with quantity := match r.quantity with
                       | some q => some q
                       | none => m }

/-- Line 27: quantity = quantity.fillna(quantity.median()), applied to the
rows that survived the line 26 dropna; the median ranges over exactly the
non-null quantities of those rows. -/
def fillna_median (rows : List CoercedRecord) : List CoercedRecord :=
  let m := median (rows.filterMap (fun r => r.quantity))
  rows.map (imputeWith m)

/-- The de-duplication key of line 30. -/
def keyTriple (r : CoercedRecord) : Option String × Option String × Option String :=
  (r.order_id, r.product_id, r.customer_id)

/-- Worker for drop_duplicates: keeps a row when its key triple has not been
seen yet, preserving the input order. -/
def dedupAux (seen : List (Option String × Option String × Option String)) :
    List CoercedRecord → List CoercedRecord
  | [] => []
  | r :: rs =>
    if keyTriple r ∈ seen then dedupAux seen rs
    else r :: dedupAux (keyTriple r :: seen) rs

/-- Line 30: drop_duplicates(subset=[order_id, product_id, customer_id]) with
the default keep=first. -/
def drop_duplicates (rows : List CoercedRecord) : List CoercedRecord :=
  dedupAux [] rows

/-- Strict positivity of an optional numeric cell; a null fails the pandas
comparison, exactly as NaN > 0 is False. -/
def posNum : Option ℚ → Bool
  | some x => decide (0 < x)
  | none => false

/-- Line 33: the price > 0 and quantity > 0 filter. -/
def validPQ (r : CoercedRecord) : Bool := posNum r.price && posNum r.quantity

/-- Line 34: the discount <= price filter; a null on either side fails the
pandas comparison and the row is dropped. -/
def discountLe (r : CoercedRecord) : Bool :=
  match r.discount, r.price with
  | some d, some p => decide (d ≤ p)
  | _, _ => false

/-- Step 7 (lines 37-40): order_datetime is rebuilt by parsing
order_date.astype(str) + " " + time.astype(str) with errors=coerce. A null
component renders as the string NaT, which makes the concatenated string
unparsable, so the combination is non-null exactly when both the coerced
order_date and the coerced time are non-null, and then it is their pairing. -/
def mkDatetime (r : CoercedRecord) : Option (Date × Time) :=
  match r.order_date, r.time with
  | some d, some t => some (d, t)
  | _, _ => none

/-- A cleaned row: the coerced fields together with the derived columns of
line 37 (order_datetime), line 47 (revenue) and lines 50-54 (day, week,
month, hour, dayofweek; their per-row values are derived from
order_datetime and are null where order_datetime is null). -/
structure CleanedRecord extends CoercedRecord where
  order_datetime : Option (Date × Time)
  revenue : Option ℚ
  day : Option Date
  week : Option Nat
  month : Option String
  hour : Option Nat
  dayofweek : Option String
deriving DecidableEq

/-- Derives order_datetime, revenue and the time-derived per-row values for
one surviving row (lines 37, 47 and 50-54). -/
def addDerived (r : CoercedRecord) : CleanedRecord :=
  let dt := mkDatetime r
  { toCoercedRecord := r
    order_datetime := dt
    revenue :=
      match r.quantity, r.price, r.discount with
      | some q, some p, some d => some (q * (p - d))
      | _, _, _ => none
    day := dt.map (fun p => p.1)
    week := dt.map (fun p => isoWeek p.1)
    month := dt.map (fun p => monthLabel p.1)
    hour := dt.map (fun p => p.2.hour)
    dayofweek := dt.map (fun p => dayName p.1) }

/-- The row-dropping core of the pipeline, lines 26-34: dropna on the keys,
quantity imputation, de-duplication, and the two validity filters, in the
order the script applies them. -/
def cleanCore (rows : List CoercedRecord) : List CoercedRecord :=
  ((drop_duplicates (fillna_median (rows.filter keysPresent))).filter
      validPQ).filter discountLe

/-- The cleaned record set for a raw row list: coercion, the row-dropping
core, and the derived columns. -/
def pipelineRows (rows : List RawRecord) : List CleanedRecord :=
  (cleanCore (rows.map coerce)).map addDerived

/-- The cleaned table: the rows plus whether the guarded derived columns of
lines 49-54 were created. In pandas the five derived columns are table-wide;
hasDerived records their presence. -/
structure CleanedTable where
  rows : List CleanedRecord
  hasDerived : Bool
deriving DecidableEq

/-- Builds the cleaned table; hasDerived mirrors the line 49 guard
if not df[order_datetime].isnull().all(). On an empty table the guard is
vacuously false and the columns are not created. -/
def makeTable (rows : List RawRecord) : CleanedTable :=
  let c := pipelineRows rows
  ⟨c, !(c.all (fun r => r.order_datetime.isNone))⟩

/-! ### Structural (schema) failure -/

/-- The error raised when a required column is absent: pandas raises KeyError
naming the column at the first access; the spec calls this condition
SchemaError. -/
structure SchemaError where
  col : String
deriving DecidableEq

/-- The columns the pipeline accesses, in the order the script touches them
(lines 18, 19, 21, 22, 23, then the line 26 dropna subset). -/
def requiredCols : List String :=
  ["order_date", "time", "price", "discount", "quantity",
   "order_id", "product_id", "customer_id"]

/-- A raw table: the header of the uploaded CSV plus its rows. -/
structure RawTable where
  header : List String
  rows : List RawRecord

/-- The first required column absent from the header, in access order. -/
def firstMissing (t : RawTable) : Option String :=
  requiredCols.find? (fun c => decide (c ∉ t.header))

/-- The whole pipeline on an uploaded table: a missing required column stops
the script with an error naming that column and no cleaned output; otherwise
the cleaned table is produced, and no value-level content can fail it. -/
def pipeline (t : RawTable) : Except SchemaError CleanedTable :=
  match firstMissing t with
  | some c => Except.error ⟨c⟩
  | none => Except.ok (makeTable t.rows)

/-! ### Downstream column accesses (lines 57 and 160) -/

/-- A pandas KeyError from selecting absent columns. -/
structure ColumnKeyError where
  missing : List String
deriving DecidableEq

/-- Line 57: the engineered-features preview selects order_id, revenue, day,
week, month, hour, dayofweek and shows head(); when the guarded derived
columns were never created this raises a KeyError naming them. -/
def featuresPreview (t : CleanedTable) :
    Except ColumnKeyError
      (List (Option String × Option ℚ × Option Date × Option Nat ×
        Option String × Option Nat × Option String)) :=
  if t.hasDerived then
    Except.ok ((t.rows.take 5).map (fun r =>
      (r.order_id, r.revenue, r.day, r.week, r.month, r.hour, r.dayofweek)))
  else Except.error ⟨["day", "week", "month", "hour", "dayofweek"]⟩

/-- Line 160: is_weekend = dayofweek.isin([Saturday, Sunday]). The guard at
line 146 tests for the order_datetime column, which always exists, so this
access is reached and raises a KeyError when dayofweek was never created; a
null dayofweek yields false, as isin does for NaN. -/
def isWeekendCol (t : CleanedTable) : Except ColumnKeyError (List Bool) :=
  if t.hasDerived then
    Except.ok (t.rows.map (fun r =>
      match r.dayofweek with
      | some s => ["Saturday", "Sunday"].contains s
      | none => false))
  else Except.error ⟨["dayofweek"]⟩

/-! ### The drop-count report -/

/-- Modelled from the spec: the report of rows dropped per stage (null-key
rows, duplicate rows, invalid price or quantity rows, invalid discount rows)
that section 4.1 of the spec says accompanies the cleaned set. The source
script computes no such counts; this structure exists to compare the spec
contract with what the script returns. -/
structure Report where
  nullKey : Nat
  dup : Nat
  invalidPQ : Nat
  invalidDiscount : Nat
deriving DecidableEq

/-- The per-stage drop counts determined by the pipeline stages (each count
is the number of rows the corresponding stage removes). -/
def reportOf (rows : List RawRecord) : Report :=
  let coerced := rows.map coerce
  let keyed := coerced.filter keysPresent
  let imputed := fillna_median keyed
  let ded := drop_duplicates imputed
  let pq := ded.filter validPQ
  let disc := pq.filter discountLe
  { nullKey := coerced.length - keyed.length
    dup := imputed.length - ded.length
    invalidPQ := ded.length - pq.length
    invalidDiscount := pq.length - disc.length }

/-- The rows that reach the line 34 discount filter: output of the line 33
price and quantity filter. -/
def discountStageInput (rows : List RawRecord) : List CoercedRecord :=
  (drop_duplicates (fillna_median ((rows.map coerce).filter keysPresent))).filter
    validPQ

/-- The rows surviving the line 26 key dropna, the list over which the
line 27 median is computed. -/
def keyedOf (rows : List RawRecord) : List CoercedRecord :=
  (rows.map coerce).filter keysPresent

/-- The fill value of line 27: the median of the non-null coerced quantities
of the rows surviving the key dropna. -/
def postKeyMedian (rows : List RawRecord) : Option ℚ :=
  median ((keyedOf rows).filterMap (fun r => r.quantity))

/-! ### Helper lemmas -/

theorem addDerived_toCoerced (r : CoercedRecord) :
    (addDerived r).toCoercedRecord = r := rfl

theorem keysPresent_imputeWith (m : Option ℚ) (r : CoercedRecord) :
    keysPresent (imputeWith m r) = keysPresent r := rfl

theorem keyTriple_imputeWith (m : Option ℚ) (r : CoercedRecord) :
    keyTriple (imputeWith m r) = keyTriple r := rfl

theorem posNum_spec {o : Option ℚ} (h : posNum o = true) :
    ∃ x, o = some x ∧ 0 < x := by
  cases o with
  | none => simp [posNum] at h
  | some x => exact ⟨x, rfl, by simpa [posNum] using h⟩

theorem validPQ_spec {r : CoercedRecord} (h : validPQ r = true) :
    (∃ p, r.price = some p ∧ 0 < p) ∧ (∃ q, r.quantity = some q ∧ 0 < q) := by
  rw [validPQ, Bool.and_eq_true] at h
  exact ⟨posNum_spec h.1, posNum_spec h.2⟩

theorem discountLe_spec {r : CoercedRecord} (h : discountLe r = true) :
    ∃ d p, r.discount = some d ∧ r.price = some p ∧ d ≤ p := by
  rw [discountLe] at h
  cases hd : r.discount with
  | none => rw [hd] at h; cases hp : r.price <;> rw [hp] at h <;> simp at h
  | some d =>
    cases hp : r.price with
    | none => rw [hd, hp] at h; simp at h
    | some p =>
      rw [hd, hp] at h
      exact ⟨d, p, rfl, rfl, of_decide_eq_true h⟩

theorem keysPresent_spec {r : CoercedRecord} (h : keysPresent r = true) :
    r.order_id.isSome ∧ r.product_id.isSome ∧ r.customer_id.isSome := by
  rw [keysPresent, Bool.and_eq_true, Bool.and_eq_true] at h
  exact ⟨h.1.1, h.1.2, h.2⟩

theorem quantity_isSome_of_validPQ {r : CoercedRecord} (h : validPQ r = true) :
    r.quantity.isSome := by
  obtain ⟨-, q, hq, -⟩ := validPQ_spec h
  simp [hq]

theorem imputeWith_of_isSome {m : Option ℚ} {r : CoercedRecord}
    (h : r.quantity.isSome) : imputeWith m r = r := by
  cases r with
  | mk o p c cat reg pay od t pr di q =>
    cases q with
    | none => simp at h
    | some x => rfl

theorem listMapEqSelf {α : Type} {f : α → α} :
    ∀ {l : List α}, (∀ x ∈ l, f x = x) → l.map f = l
  | [], _ => rfl
  | x :: xs, h => by
    simp only [List.map_cons, List.cons.injEq]
    exact ⟨h x (List.mem_cons_self x xs),
      listMapEqSelf (fun y hy => h y (List.mem_cons_of_mem x hy))⟩

theorem listFilterEqSelf {α : Type} {p : α → Bool} :
    ∀ {l : List α}, (∀ x ∈ l, p x = true) → l.filter p = l
  | [], _ => rfl
  | x :: xs, h => by
    rw [List.filter_cons, if_pos (h x (List.mem_cons_self x xs))]
    exact congrArg (x :: ·) (listFilterEqSelf fun y hy => h y (List.mem_cons_of_mem x hy))

theorem mem_dedupAux :
    ∀ {seen : List (Option String × Option String × Option String)}
      {xs : List CoercedRecord} {r : CoercedRecord},
      r ∈ dedupAux seen xs → r ∈ xs ∧ keyTriple r ∉ seen
  | _, [], _, h => by simp [dedupAux] at h
  | seen, x :: xs, r, h => by
    rw [dedupAux] at h
    by_cases hx : keyTriple x ∈ seen
    · rw [if_pos hx] at h
      obtain ⟨h1, h2⟩ := mem_dedupAux h
      exact ⟨List.mem_cons_of_mem x h1, h2⟩
    · rw [if_neg hx] at h
      rcases List.mem_cons.1 h with rfl | h
      · exact ⟨List.mem_cons_self r xs, hx⟩
      · obtain ⟨h1, h2⟩ := mem_dedupAux h
        rw [List.mem_cons] at h2
        push_neg at h2
        exact ⟨List.mem_cons_of_mem x h1, h2.2⟩

theorem pairwise_dedupAux :
    ∀ (seen : List (Option String × Option String × Option String))
      (xs : List CoercedRecord),
      (dedupAux seen xs).Pairwise (fun a b => keyTriple a ≠ keyTriple b)
  | _, [] => List.Pairwise.nil
  | seen, x :: xs => by
    rw [dedupAux]
    by_cases hx : keyTriple x ∈ seen
    · rw [if_pos hx]
      exact pairwise_dedupAux seen xs
    · rw [if_neg hx]
      refine List.pairwise_cons.2 ⟨fun b hb => ?_, pairwise_dedupAux _ xs⟩
      have h2 := (mem_dedupAux hb).2
      rw [List.mem_cons] at h2
      push_neg at h2
      exact fun hEq => h2.1 hEq.symm

theorem dedupAux_eq_self :
    ∀ {seen : List (Option String × Option String × Option String)}
      {xs : List CoercedRecord},
      xs.Pairwise (fun a b => keyTriple a ≠ keyTriple b) →
      (∀ x ∈ xs, keyTriple x ∉ seen) → dedupAux seen xs = xs
  | _, [], _, _ => rfl
  | seen, x :: xs, hp, hs => by
    rw [dedupAux, if_neg (hs x (List.mem_cons_self x xs))]
    obtain ⟨hx, hxs⟩ := List.pairwise_cons.1 hp
    refine congrArg (x :: ·) (dedupAux_eq_self hxs fun y hy => ?_)
    rw [List.mem_cons]
    push_neg
    exact ⟨fun hEq => hx y hy hEq.symm, hs y (List.mem_cons_of_mem x hy)⟩

theorem dedupAux_length_le :
    ∀ (seen : List (Option String × Option String × Option String))
      (xs : List CoercedRecord), (dedupAux seen xs).length ≤ xs.length
  | _, [] => Nat.le_refl 0
  | seen, x :: xs => by
    rw [dedupAux]
    by_cases hx : keyTriple x ∈ seen
    · rw [if_pos hx]
      exact Nat.le_succ_of_le (dedupAux_length_le seen xs)
    · rw [if_neg hx, List.length_cons, List.length_cons]
      exact Nat.succ_le_succ (dedupAux_length_le _ xs)

theorem find?_of_mem_dedupAux :
    ∀ {seen : List (Option String × Option String × Option String)}
      {xs : List CoercedRecord} {r : CoercedRecord},
      r ∈ dedupAux seen xs →
      xs.find? (fun x => decide (keyTriple x = keyTriple r)) = some r
  | _, [], _, h => by simp [dedupAux] at h
  | seen, x :: xs, r, h => by
    rw [dedupAux] at h
    by_cases hx : keyTriple x ∈ seen
    · rw [if_pos hx] at h
      have hr := (mem_dedupAux h).2
      have hne : ¬ keyTriple x = keyTriple r := fun hEq => hr (hEq ▸ hx)
      rw [List.find?, decide_eq_false hne]
      exact find?_of_mem_dedupAux h
    · rw [if_neg hx] at h
      rcases List.mem_cons.1 h with rfl | h
      · rw [List.find?, decide_eq_true rfl]
      · have hr := (mem_dedupAux h).2
        rw [List.mem_cons] at hr
        push_neg at hr
        have hne : ¬ keyTriple x = keyTriple r := fun hEq => hr.1 hEq.symm
        rw [List.find?, decide_eq_false hne]
        exact find?_of_mem_dedupAux h

theorem exists_of_dedupAux :
    ∀ {seen : List (Option String × Option String × Option String)}
      {xs : List CoercedRecord} {x : CoercedRecord},
      x ∈ xs → keyTriple x ∉ seen →
      ∃ r ∈ dedupAux seen xs, keyTriple r = keyTriple x
  | _, [], _, hx, _ => absurd hx (List.not_mem_nil _)
  | seen, y :: ys, x, hx, hs => by
    rw [dedupAux]
    by_cases hy : keyTriple y ∈ seen
    · rw [if_pos hy]
      rcases List.mem_cons.1 hx with rfl | hx2
      · exact absurd hy hs
      · exact exists_of_dedupAux hx2 hs
    · rw [if_neg hy]
      rcases List.mem_cons.1 hx with rfl | hx2
      · exact ⟨x, List.mem_cons_self _ _, rfl⟩
      · by_cases hk : keyTriple x = keyTriple y
        · exact ⟨y, List.mem_cons_self _ _, hk.symm⟩
        · have hs2 : keyTriple x ∉ keyTriple y :: seen := by
            rw [List.mem_cons]
            push_neg
            exact ⟨hk, hs⟩
          obtain ⟨r, hr, hre⟩ := exists_of_dedupAux hx2 hs2
          exact ⟨r, List.mem_cons_of_mem y hr, hre⟩

theorem mem_cleanCore {xs : List CoercedRecord} {c : CoercedRecord}
    (h : c ∈ cleanCore xs) :
    c ∈ drop_duplicates (fillna_median (xs.filter keysPresent)) ∧
      validPQ c = true ∧ discountLe c = true := by
  rw [cleanCore] at h
  have h1 := List.mem_filter.1 h
  have h2 := List.mem_filter.1 h1.1
  exact ⟨h2.1, h2.2, h1.2⟩

theorem mem_fillna_median {xs : List CoercedRecord} {c : CoercedRecord}
    (h : c ∈ fillna_median xs) :
    ∃ k ∈ xs, c = imputeWith (median (xs.filterMap (fun r => r.quantity))) k := by
  rw [fillna_median] at h
  obtain ⟨k, hk, rfl⟩ := List.mem_map.1 h
  exact ⟨k, hk, rfl⟩

theorem keys_of_mem_cleanCore {xs : List CoercedRecord} {c : CoercedRecord}
    (h : c ∈ cleanCore xs) : keysPresent c = true := by
  obtain ⟨hd, -, -⟩ := mem_cleanCore h
  obtain ⟨hf, -⟩ := mem_dedupAux hd
  obtain ⟨k, hk, rfl⟩ := mem_fillna_median hf
  rw [keysPresent_imputeWith]
  exact (List.mem_filter.1 hk).2

theorem pairwise_cleanCore (xs : List CoercedRecord) :
    (cleanCore xs).Pairwise (fun a b => keyTriple a ≠ keyTriple b) := by
  rw [cleanCore]
  exact List.Pairwise.sublist (List.filter_sublist _)
    (List.Pairwise.sublist (List.filter_sublist _) (pairwise_dedupAux _ _))

/-! ### Claim theorems -/

theorem cleanCore_idem (xs : List CoercedRecord) :
    cleanCore (cleanCore xs) = cleanCore xs := by
  have hKeys : ∀ c ∈ cleanCore xs, keysPresent c = true :=
    fun c hc => keys_of_mem_cleanCore hc
  have hPQ : ∀ c ∈ cleanCore xs, validPQ c = true :=
    fun c hc => (mem_cleanCore hc).2.1
  have hDisc : ∀ c ∈ cleanCore xs, discountLe c = true :=
    fun c hc => (mem_cleanCore hc).2.2
  have hPW := pairwise_cleanCore xs
  have h1 : (cleanCore xs).filter keysPresent = cleanCore xs :=
    listFilterEqSelf hKeys
  have h2 : fillna_median (cleanCore xs) = cleanCore xs := by
    rw [fillna_median]
    exact listMapEqSelf fun c hc =>
      imputeWith_of_isSome (quantity_isSome_of_validPQ (hPQ c hc))
  have h3 : drop_duplicates (cleanCore xs) = cleanCore xs :=
    dedupAux_eq_self hPW (fun x _ => List.not_mem_nil _)
  have h4 : (cleanCore xs).filter validPQ = cleanCore xs := listFilterEqSelf hPQ
  have h5 : (cleanCore xs).filter discountLe = cleanCore xs :=
    listFilterEqSelf hDisc
  calc cleanCore (cleanCore xs)
      = ((drop_duplicates (fillna_median ((cleanCore xs).filter
          keysPresent))).filter validPQ).filter discountLe := rfl
    _ = cleanCore xs := by rw [h1, h2, h3, h4, h5]

/-- C9. The pipeline is idempotent on its own output: applying the
row-dropping core (key dropna, imputation, de-duplication, validity filters;
type coercion is the identity on already-typed pass-through columns) a second
time changes nothing, and in particular re-running it on the coerced fields
of the cleaned record set the pipeline produced drops no row. -/
theorem pipeline_idempotent :
    (∀ xs : List CoercedRecord, cleanCore (cleanCore xs) = cleanCore xs) ∧
    ∀ rows : List RawRecord,
      cleanCore ((pipelineRows rows).map (fun r => r.toCoercedRecord)) =
        (pipelineRows rows).map (fun r => r.toCoercedRecord) := by
  refine ⟨cleanCore_idem, fun rows => ?_⟩
  have hmap : (pipelineRows rows).map (fun r => r.toCoercedRecord) =
      cleanCore (rows.map coerce) := by
    rw [pipelineRows, List.map_map]
    exact listMapEqSelf fun c _ => rfl
  rw [hmap, cleanCore_idem]

/-- C1. Every record in the cleaned set has a non-null price strictly greater
than zero, a non-null quantity strictly greater than zero, a non-null
discount bounded by its price, and non-null order_id, product_id and
customer_id. -/
theorem cleaned_invariants (rows : List RawRecord) :
    ∀ r ∈ pipelineRows rows,
      (∃ p, r.price = some p ∧ 0 < p) ∧
      (∃ q, r.quantity = some q ∧ 0 < q) ∧
      (∃ d p, r.discount = some d ∧ r.price = some p ∧ d ≤ p) ∧
      (r.order_id.isSome ∧ r.product_id.isSome ∧ r.customer_id.isSome) := by
  intro r hr
  rw [pipelineRows] at hr
  obtain ⟨c, hc, rfl⟩ := List.mem_map.1 hr
  obtain ⟨-, hPQ, hDisc⟩ := mem_cleanCore hc
  obtain ⟨hp, hq⟩ := validPQ_spec hPQ
  exact ⟨hp, hq, discountLe_spec hDisc,
    keysPresent_spec (keys_of_mem_cleanCore hc)⟩

theorem addDerived_revenue {c : CoercedRecord} {q p d : ℚ}
    (hq : c.quantity = some q) (hp : c.price = some p)
    (hd : c.discount = some d) :
    (addDerived c).revenue = some (q * (p - d)) := by
  show (match c.quantity, c.price, c.discount with
    | some q, some p, some d => some (q * (p - d))
    | _, _, _ => none) = some (q * (p - d))
  rw [hq, hp, hd]

/-- C8. Every cleaned record carries revenue = quantity * (price - discount),
computed exactly on the represented values (exact rational equality implies
the 1e-9 tolerance the spec allows); the computation at line 47 is
unconditional, so it covers records whose order_datetime is null as well. -/
theorem revenue_formula (rows : List RawRecord) :
    ∀ r ∈ pipelineRows rows, ∃ q p d,
      r.quantity = some q ∧ r.price = some p ∧ r.discount = some d ∧
      r.revenue = some (q * (p - d)) := by
  intro r hr
  rw [pipelineRows] at hr
  obtain ⟨c, hc, rfl⟩ := List.mem_map.1 hr
  obtain ⟨-, hPQ, hDisc⟩ := mem_cleanCore hc
  obtain ⟨⟨p, hp, -⟩, ⟨q, hq, -⟩⟩ := validPQ_spec hPQ
  obtain ⟨d, p2, hd, hp2, -⟩ := discountLe_spec hDisc
  exact ⟨q, p, d, hq, hp, hd, addDerived_revenue hq hp hd⟩

/-- C6. A record that reaches the line 34 discount filter with a null
discount fails the comparison (pandas NaN comparisons are False) and appears
nowhere in the cleaned set. -/
theorem null_discount_dropped (rows : List RawRecord) :
    ∀ c ∈ discountStageInput rows, c.discount = none →
      discountLe c = false ∧
      ∀ r ∈ pipelineRows rows, r.toCoercedRecord ≠ c := by
  intro c _ hnull
  have hfalse : discountLe c = false := by
    rw [discountLe, hnull]
  refine ⟨hfalse, ?_⟩
  intro r hr hEq
  rw [pipelineRows] at hr
  obtain ⟨c', hc', rfl⟩ := List.mem_map.1 hr
  rw [addDerived_toCoerced] at hEq
  subst hEq
  rw [(mem_cleanCore hc').2.2] at hfalse
  exact Bool.noConfusion hfalse

/-- C5 (amended). In the cleaned set, order_datetime is null exactly when the
coerced order_date or the coerced time is null (the line 37 string
concatenation turns a null component into the unparsable text NaT), and when
both are present order_datetime is their combination. A record with a parsed
order_date but an absent time therefore gets a null order_datetime, not
midnight. -/
theorem datetime_requires_both (rows : List RawRecord) :
    ∀ r ∈ pipelineRows rows,
      ((r.order_datetime = none) ↔ (r.order_date = none ∨ r.time = none)) ∧
      (∀ d t, r.order_date = some d → r.time = some t →
        r.order_datetime = some (d, t)) := by
  intro r hr
  rw [pipelineRows] at hr
  obtain ⟨c, hc, rfl⟩ := List.mem_map.1 hr
  constructor
  · show (mkDatetime c = none) ↔ (c.order_date = none ∨ c.time = none)
    rw [mkDatetime]
    cases c.order_date <;> cases c.time <;> simp
  · intro d t hd ht
    show mkDatetime c = some (d, t)
    have hd' : c.order_date = some d := hd
    have ht' : c.time = some t := ht
    rw [mkDatetime, hd', ht']

/-- C4 (amended). Every cleaned record is the image, under imputation with
the post-dropna median, of a record surviving the line 26 key dropna; a
record whose coerced quantity was null receives the median of the non-null
quantities of the rows surviving the key dropna (not the median over all
coerced rows: line 27 runs after line 26). -/
theorem imputation_postdropna (rows : List RawRecord) :
    ∀ r ∈ pipelineRows rows, ∃ k ∈ keyedOf rows,
      r.toCoercedRecord = imputeWith (postKeyMedian rows) k ∧
      (k.quantity = none → r.quantity = postKeyMedian rows) := by
  intro r hr
  rw [pipelineRows] at hr
  obtain ⟨c, hc, rfl⟩ := List.mem_map.1 hr
  obtain ⟨hd, -, -⟩ := mem_cleanCore hc
  obtain ⟨hf, -⟩ := mem_dedupAux hd
  obtain ⟨k, hk, rfl⟩ := mem_fillna_median hf
  refine ⟨k, hk, rfl, ?_⟩
  intro hnone
  show (match k.quantity with
    | some q => some q
    | none => postKeyMedian rows) = postKeyMedian rows
  rw [hnone]

/-- C7. No two cleaned records share the (order_id, product_id, customer_id)
triple; at the line 30 drop_duplicates stage every input key triple keeps a
survivor, and that survivor is precisely the first record of its group in
input order (it carries that first record whole, price included). -/
theorem dedup_first_occurrence (rows : List RawRecord) :
    (pipelineRows rows).Pairwise
      (fun a b => keyTriple a.toCoercedRecord ≠ keyTriple b.toCoercedRecord) ∧
    (∀ (xs : List CoercedRecord), ∀ r ∈ drop_duplicates xs,
      xs.find? (fun x => decide (keyTriple x = keyTriple r)) = some r) ∧
    (∀ (xs : List CoercedRecord), ∀ x ∈ xs,
      ∃ r ∈ drop_duplicates xs, keyTriple r = keyTriple x) := by
  refine ⟨?_, ?_, ?_⟩
  · rw [pipelineRows, List.pairwise_map]
    exact pairwise_cleanCore _
  · intro xs r hr
    exact find?_of_mem_dedupAux hr
  · intro xs x hx
    exact exists_of_dedupAux hx (List.not_mem_nil _)

/-- C3. The pipeline succeeds exactly when every required column is present
in the header, independent of the cell values (malformed values are coerced
to null, never raised on); when it fails, the reported error names a column
that is both required and missing, and no cleaned output is produced. -/
theorem schema_failure_iff (t : RawTable) :
    ((∃ T, pipeline t = Except.ok T) ↔ ∀ c ∈ requiredCols, c ∈ t.header) ∧
    (∀ e, pipeline t = Except.error e →
      e.col ∈ requiredCols ∧ e.col ∉ t.header) := by
  cases hfm : firstMissing t with
  | none =>
    have hok : pipeline t = Except.ok (makeTable t.rows) := by
      rw [pipeline, hfm]
    constructor
    · constructor
      · intro _ c hcmem
        have hnone := List.find?_eq_none.1 hfm c hcmem
        simpa using hnone
      · intro _
        exact ⟨makeTable t.rows, hok⟩
    · intro e he
      rw [hok] at he
      cases he
  | some c =>
    have herr : pipeline t = Except.error ⟨c⟩ := by
      rw [pipeline, hfm]
    have hfind : requiredCols.find? (fun c2 => decide (c2 ∉ t.header)) = some c :=
      hfm
    have hcmem : c ∈ requiredCols := List.mem_of_find?_eq_some hfind
    have hp : (fun c2 => decide (c2 ∉ t.header)) c = true :=
      @List.find?_some _ (fun c2 => decide (c2 ∉ t.header)) c _ hfind
    have hcnot : c ∉ t.header := of_decide_eq_true hp
    constructor
    · constructor
      · intro hT
        obtain ⟨T, hT⟩ := hT
        rw [herr] at hT
        cases hT
      · intro hall
        exact absurd (hall c hcmem) hcnot
    · intro e he
      rw [herr] at he
      cases he
      exact ⟨hcmem, hcnot⟩

/-- C2 (amended, partition part). The per-stage drop counts are determined
by the input and partition it: the raw row count equals the null-key drops
plus the duplicate drops plus the invalid price or quantity drops plus the
invalid discount drops plus the cleaned row count. The script does not
return these counts (see the counterexample). -/
theorem drop_counts_partition (rows : List RawRecord) :
    rows.length =
      (reportOf rows).nullKey + (reportOf rows).dup + (reportOf rows).invalidPQ
        + (reportOf rows).invalidDiscount + (pipelineRows rows).length := by
  simp only [reportOf, pipelineRows, cleanCore]
  set A := rows.map coerce with hA
  set K := A.filter keysPresent with hK
  set F := fillna_median K with hF
  set D := drop_duplicates F with hD
  set P := D.filter validPQ with hP
  set C := P.filter discountLe with hC
  have e0 : A.length = rows.length := by rw [hA]; simp
  have h1 : K.length ≤ A.length := by rw [hK]; exact List.length_filter_le _ _
  have e2 : F.length = K.length := by rw [hF, fillna_median]; simp
  have h3 : D.length ≤ F.length := by rw [hD]; exact dedupAux_length_le _ _
  have h4 : P.length ≤ D.length := by rw [hP]; exact List.length_filter_le _ _
  have h5 : C.length ≤ P.length := by rw [hC]; exact List.length_filter_le _ _
  have e6 : (C.map addDerived).length = C.length := by simp
  rw [e6]
  omega

/-- C10. When every cleaned record has a null order_datetime (for instance
because no order_date parsed), the line 49 guard is false, so the day, week,
month, hour and dayofweek columns are never created, and both the line 57
features preview and the line 160 is_weekend computation raise a key-lookup
error naming the absent columns (in one run of the script the first raise
already aborts it). -/
theorem derived_columns_guard (rows : List RawRecord)
    (h : ∀ r ∈ pipelineRows rows, r.order_datetime = none) :
    (makeTable rows).hasDerived = false ∧
    featuresPreview (makeTable rows) =
      Except.error ⟨["day", "week", "month", "hour", "dayofweek"]⟩ ∧
    isWeekendCol (makeTable rows) = Except.error ⟨["dayofweek"]⟩ := by
  have hall : (pipelineRows rows).all (fun r => r.order_datetime.isNone) = true :=
    List.all_eq_true.2 fun r hr => by rw [h r hr]; rfl
  have hderived : (makeTable rows).hasDerived = false := by
    simp only [makeTable, hall]
    rfl
  refine ⟨hderived, ?_, ?_⟩
  · rw [featuresPreview, hderived]
    rfl
  · rw [isWeekendCol, hderived]
    rfl

/-! ### Concrete inputs for witnesses and counterexamples -/

/-- A fully valid raw row. -/
def c1row : RawRecord :=
  ⟨some "1", some "A", some "X", some "Electronics", some "North", some "Card",
   some "2024-03-05", some "14:30:00", some "10", some "2", some "3"⟩

/-- A fully valid raw row for the revenue witness. -/
def c8row : RawRecord :=
  ⟨some "7", some "B", some "Y", some "Books", some "South", some "Cash",
   some "2024-06-10", some "08:15:00", some "20", some "5", some "4"⟩

/-- A raw row with an empty discount cell that passes the price and quantity
filter. -/
def c6row : RawRecord :=
  ⟨some "1", some "A", some "X", none, none, none,
   some "2024-03-05", some "14:30:00", some "10", none, some "2"⟩

/-- A fully valid raw row for the datetime witness. -/
def c5row : RawRecord :=
  ⟨some "1", some "A", some "X", none, none, none,
   some "2024-03-05", some "14:30:00", some "10", some "2", some "3"⟩

/-- A raw row with a parsable order_date and an empty time cell. -/
def c5misRow : RawRecord :=
  ⟨some "1", some "A", some "X", none, none, none,
   some "2024-03-05", none, some "10", some "2", some "3"⟩

/-- Quantity-imputation rows: a null quantity on a key-complete row, two
key-complete rows with quantities 2 and 4, and a row with a null order_id
and quantity 100. -/
def c4rowA : RawRecord :=
  ⟨some "1", some "A", some "X", none, none, none,
   some "2024-01-05", some "09:00:00", some "5", some "0", none⟩

def c4rowB : RawRecord :=
  ⟨some "2", some "A", some "X", none, none, none,
   some "2024-01-05", some "09:00:00", some "5", some "0", some "2"⟩

def c4rowC : RawRecord :=
  ⟨some "3", some "A", some "X", none, none, none,
   some "2024-01-05", some "09:00:00", some "5", some "0", some "4"⟩

def c4rowD : RawRecord :=
  ⟨none, some "A", some "X", none, none, none,
   some "2024-01-05", some "09:00:00", some "5", some "0", some "100"⟩

/-- Two raw rows sharing the key triple (1, A, X) with prices 10 and 20. -/
def c7rowA : RawRecord :=
  ⟨some "1", some "A", some "X", none, none, none,
   some "2024-03-05", some "14:30:00", some "10", some "2", some "3"⟩

def c7rowB : RawRecord :=
  ⟨some "1", some "A", some "X", none, none, none,
   some "2024-03-05", some "14:30:00", some "20", some "2", some "3"⟩

def c7c1 : CoercedRecord := coerce c7rowA

def c7c2 : CoercedRecord := coerce c7rowB

/-- An upload with the complete header and no rows. -/
def c3goodTable : RawTable :=
  ⟨["order_id", "product_id", "customer_id", "category", "region",
    "payment_method", "order_date", "time", "price", "discount", "quantity"],
   []⟩

/-- An upload whose header lacks the date, time and numeric columns. -/
def c3badTable : RawTable :=
  ⟨["order_id", "product_id", "customer_id"], []⟩

/-- A fully valid raw row for the report counterexample. -/
def c2rowGood : RawRecord :=
  ⟨some "1", some "A", some "X", none, none, none,
   some "2024-03-05", some "14:30:00", some "10", some "2", some "3"⟩

/-- A raw row with an empty order_id cell. -/
def c2rowBad : RawRecord :=
  ⟨none, some "A", some "X", none, none, none,
   some "2024-03-05", some "14:30:00", some "10", some "2", some "3"⟩

/-- A valid raw row whose order_date cell is unparsable text. -/
def c10row : RawRecord :=
  ⟨some "1", some "A", some "X", none, none, none,
   some "not-a-date", some "09:00:00", some "10", some "2", some "3"⟩

/-! ### Witnesses and counterexamples -/

/-- Witness for C1 at a concrete one-row input. -/
theorem cleaned_invariants_witness :
    (∃ p, (addDerived (coerce c1row)).price = some p ∧ 0 < p) ∧
    (∃ q, (addDerived (coerce c1row)).quantity = some q ∧ 0 < q) ∧
    (∃ d p, (addDerived (coerce c1row)).discount = some d ∧
      (addDerived (coerce c1row)).price = some p ∧ d ≤ p) ∧
    ((addDerived (coerce c1row)).order_id.isSome ∧
      (addDerived (coerce c1row)).product_id.isSome ∧
      (addDerived (coerce c1row)).customer_id.isSome) :=
  cleaned_invariants [c1row] (addDerived (coerce c1row))
    (by with_unfolding_all decide)

/-- Witness for C8 at a concrete one-row input. -/
theorem revenue_formula_witness :
    ∃ q p d, (addDerived (coerce c8row)).quantity = some q ∧
      (addDerived (coerce c8row)).price = some p ∧
      (addDerived (coerce c8row)).discount = some d ∧
      (addDerived (coerce c8row)).revenue = some (q * (p - d)) :=
  revenue_formula [c8row] (addDerived (coerce c8row))
    (by with_unfolding_all decide)

/-- Witness for C6: a row with a null discount reaches the discount filter
and is dropped from the cleaned set. -/
theorem null_discount_dropped_witness :
    discountLe (coerce c6row) = false ∧
    ∀ r ∈ pipelineRows [c6row], r.toCoercedRecord ≠ coerce c6row :=
  null_discount_dropped [c6row] (coerce c6row)
    (by with_unfolding_all decide) rfl

/-- Witness for the amended C5: a record with both components present gets
their combination as order_datetime. -/
theorem datetime_requires_both_witness :
    (addDerived (coerce c5row)).order_datetime =
      some (⟨2024, 3, 5⟩, ⟨14, 30, 0⟩) :=
  (datetime_requires_both [c5row] (addDerived (coerce c5row))
      (by with_unfolding_all decide)).2 ⟨2024, 3, 5⟩ ⟨14, 30, 0⟩
    (by with_unfolding_all decide) (by with_unfolding_all decide)

/-- Counterexample for C5 as stated: on a cleaned record whose order_date
parsed (2024-03-05) and whose time cell is absent, order_datetime is null,
not order_date at midnight. -/
theorem datetime_midnight_cex :
    ¬ (∀ r ∈ pipelineRows [c5misRow], r.time = none → r.order_date.isSome →
        r.order_datetime = r.order_date.map (fun d => (d, (⟨0, 0, 0⟩ : Time)))) := by
  with_unfolding_all decide

/-- Witness for the amended C4 at the four-row input: the cleaned record
coming from the null-quantity row is the imputation, with the post-dropna
median, of a row surviving the key dropna. -/
theorem imputation_postdropna_witness :
    ∃ k ∈ keyedOf [c4rowA, c4rowB, c4rowC, c4rowD],
      (addDerived (imputeWith (some 3) (coerce c4rowA))).toCoercedRecord =
        imputeWith (postKeyMedian [c4rowA, c4rowB, c4rowC, c4rowD]) k ∧
      (k.quantity = none →
        (addDerived (imputeWith (some 3) (coerce c4rowA))).quantity =
          postKeyMedian [c4rowA, c4rowB, c4rowC, c4rowD]) :=
  imputation_postdropna [c4rowA, c4rowB, c4rowC, c4rowD]
    (addDerived (imputeWith (some 3) (coerce c4rowA)))
    (by with_unfolding_all decide)

/-- Counterexample for C4 as stated: over the four raw rows, the median of
all coerced quantities (2, 4, 100 — before any filtering) is 4, yet the
cleaned record imputed for the null-quantity row (order_id 1) carries
quantity 3, the median of the quantities 2 and 4 remaining after the null-key
row was dropped at line 26; and 3 is not 4. -/
theorem median_prefilter_cex :
    median ((List.map coerce [c4rowA, c4rowB, c4rowC, c4rowD]).filterMap
        (fun r => r.quantity)) = some 4 ∧
    postKeyMedian [c4rowA, c4rowB, c4rowC, c4rowD] = some 3 ∧
    (pipelineRows [c4rowA, c4rowB, c4rowC, c4rowD]).map
        (fun r => (r.order_id, r.quantity)) =
      [(some "1", some 3), (some "2", some 2), (some "3", some 4)] ∧
    (some (3 : ℚ) : Option ℚ) ≠ some 4 := by
  with_unfolding_all decide

/-- Witness for C7: of two rows sharing the key triple, drop_duplicates
keeps exactly the first one, price 10 included. -/
theorem dedup_first_occurrence_witness :
    List.find? (fun x => decide (keyTriple x = keyTriple c7c1)) [c7c1, c7c2] =
      some c7c1 :=
  (dedup_first_occurrence []).2.1 [c7c1, c7c2] c7c1
    (by with_unfolding_all decide)

/-- Witness for C3: a complete header always succeeds, and an upload missing
the order_date column fails with an error naming a required, absent column. -/
theorem schema_failure_iff_witness :
    (∃ T, pipeline c3goodTable = Except.ok T) ∧
    ((⟨"order_date"⟩ : SchemaError).col ∈ requiredCols ∧
      (⟨"order_date"⟩ : SchemaError).col ∉ c3badTable.header) :=
  ⟨(schema_failure_iff c3goodTable).1.mpr (by decide),
   (schema_failure_iff c3badTable).2 ⟨"order_date"⟩ rfl⟩

/-- Counterexample for C2 as stated: the one-good-row upload and the upload
with an extra null-key row produce identical pipeline output, although their
per-stage drop counts differ (0 versus 1 null-key drops), so the output the
script returns carries no report of the counts. -/
theorem report_not_returned_cex :
    pipelineRows [c2rowGood] = pipelineRows [c2rowGood, c2rowBad] ∧
    reportOf [c2rowGood] ≠ reportOf [c2rowGood, c2rowBad] := by
  with_unfolding_all decide

/-- Witness for C10 at a one-row input whose order_date never parses. -/
theorem derived_columns_guard_witness :
    (makeTable [c10row]).hasDerived = false ∧
    featuresPreview (makeTable [c10row]) =
      Except.error ⟨["day", "week", "month", "hour", "dayofweek"]⟩ ∧
    isWeekendCol (makeTable [c10row]) = Except.error ⟨["dayofweek"]⟩ :=
  derived_columns_guard [c10row] (by with_unfolding_all decide)

end EDA
